import Mathlib

/-!
Verification of `scripts/benchmark_comparison.py` (cmdrun benchmark comparison tool).

The Python script is shallowly embedded: its dictionaries become ordered
association lists (`List (String × _)`) with Python-dict insertion semantics
(`dinsert`: update in place keeps the key's position, otherwise append), its
floating point numbers become rationals (`ℚ`), and its process-level effects
(reading files, printing, exiting) become explicit data: the file system is a
function from paths to parse results, emitted diagnostics are a list of
(channel, message) pairs, and the exit status is a returned number.
-/

/-- Substring test on character lists: `containsSub needle hay` is true when
`needle` occurs contiguously inside `hay`.  It embeds Python's
`needle in hay` test on strings. -/
def containsSub (needle : List Char) : List Char → Bool
  | [] => needle.isEmpty
  | c :: rest => needle.isPrefixOf (c :: rest) || containsSub needle rest

/-- String-level wrapper for `containsSub`, embedding Python's `in` on `str`. -/
def strContains (needle hay : String) : Bool :=
  containsSub needle.data hay.data

/-- Lookup in an ordered association list: the value stored at key `k`.
Embeds Python's `d[k]` / `k in d` on dictionaries (keys are unique in an
actual Python dict, so first match is the match). -/
def dlookup {α : Type} (k : String) : List (String × α) → Option α
  | [] => none
  | (k₂, v) :: rest => if k₂ = k then some v else dlookup k rest

/-- Insertion into an ordered association list with Python-dict semantics:
assigning to an existing key overwrites in place (keeping its position),
assigning to a fresh key appends at the end.  Embeds Python's `d[k] = v`. -/
def dinsert {α : Type} (k : String) (v : α) : List (String × α) → List (String × α)
  | [] => [(k, v)]
  | (k₂, v₂) :: rest => if k₂ = k then (k, v) :: rest else (k₂, v₂) :: dinsert k v rest

/-- Keys of an association list, in order. -/
def dkeys {α : Type} (l : List (String × α)) : List String :=
  l.map (fun p => p.1)

/-- Left-pad a string with `'0'` characters up to `width`. -/
def padLeftZeros (width : ℕ) (s : String) : String :=
  String.mk (List.replicate (width - s.length) '0') ++ s

/-- Fixed-point decimal rendering with `prec` digits after the point.  This
embeds Python's format specifier `:.{prec}f` on the rational model of the
script's floats: the value is scaled by `10 ^ prec`, rounded to the nearest
integer, and printed with the decimal point reinserted. -/
def fmtFixed (prec : ℕ) (q : ℚ) : String :=
  let scaled : ℤ := round (q * (10 : ℚ) ^ prec)
  let sign : String := if scaled < 0 then "-" else ""
  let a : ℕ := scaled.natAbs
  let b : ℕ := 10 ^ prec
  sign ++ toString (a / b) ++ "." ++ padLeftZeros prec (toString (a % b))

/-- Signed fixed-point rendering: like `fmtFixed` but non-negative values get
an explicit leading `+`.  Embeds Python's format specifier `:+.{prec}f`. -/
def fmtSigned (prec : ℕ) (q : ℚ) : String :=
  if round (q * (10 : ℚ) ^ prec) < 0 then fmtFixed prec q
  else "+" ++ fmtFixed prec q

/-- One benchmark entry of the input document: the fields of the JSON object
that `benchmark_comparison.py` reads, each optional exactly as the script
treats it (`bench.get('name', '')`, `'mean' in bench`). -/
structure Bench where
  name : Option String
  mean : Option ℚ
deriving DecidableEq

/-- The benchmark document: a JSON object with an optional top-level
`benches` array (`'benches' in data`). -/
structure BenchmarkDocument where
  benches : Option (List Bench)
deriving DecidableEq

/-- One per-metric comparison record, with the five fields built by
`compare_metrics` in the source. -/
structure ComparisonRecord where
  current : ℚ
  baseline : ℚ
  change_percent : ℚ
  improved : Bool
  regression : Bool
deriving DecidableEq

/-- The record `compare_metrics` stores for one metric: change percentage
relative to the baseline, `improved` when the change is strictly negative,
`regression` when the change exceeds 10 percent. -/
def comparisonEntry (current_value baseline_value : ℚ) : ComparisonRecord :=
  let change_percent := (current_value - baseline_value) / baseline_value * 100
  { current := current_value
    baseline := baseline_value
    change_percent := change_percent
    improved := decide (change_percent < 0)
    regression := decide (change_percent > 10) }

/-- Loop body of `extract_performance_metrics`: for a bench whose name
contains `"startup_time"` and which has a `mean` field, store the raw mean as
`startup_time_ns` and the mean divided by 1,000,000 as `startup_time_ms`. -/
def extractStep (metrics : List (String × ℚ)) (bench : Bench) : List (String × ℚ) :=
  if strContains "startup_time" (bench.name.getD "") then
    match bench.mean with
    | some m => dinsert "startup_time_ms" (m / 1000000) (dinsert "startup_time_ns" m metrics)
    | none => metrics
  else metrics

/-- Embedding of `extract_performance_metrics`: walk the `benches` array (an
absent `benches` key yields the empty map) and apply `extractStep` to each
entry, starting from the empty metric map. -/
def extract_performance_metrics (data : BenchmarkDocument) : List (String × ℚ) :=
  match data.benches with
  | some benches => benches.foldl extractStep []
  | none => []

/-- Loop body of `compare_metrics`: a metric of the current map produces a
record only when the baseline map also has it and its baseline value is
strictly positive (`baseline_value > 0` in the source). -/
def compareStep (baseline : List (String × ℚ)) (comparison : List (String × ComparisonRecord))
    (p : String × ℚ) : List (String × ComparisonRecord) :=
  match dlookup p.1 baseline with
  | some baseline_value =>
      if 0 < baseline_value then dinsert p.1 (comparisonEntry p.2 baseline_value) comparison
      else comparison
  | none => comparison

/-- Embedding of `compare_metrics`: fold over the current metric map,
building the comparison dictionary. -/
def compare_metrics (current baseline : List (String × ℚ)) : List (String × ComparisonRecord) :=
  current.foldl (compareStep baseline) []

/-- Embedding of `format_duration`: bucket a nanosecond value into `ns`,
`μs`, `ms` or `s` with two decimals, boundaries inclusive-below. -/
def format_duration (ns : ℚ) : String :=
  if ns < 1000 then fmtFixed 2 ns ++ "ns"
  else if ns < 1000000 then fmtFixed 2 (ns / 1000) ++ "μs"
  else if ns < 1000000000 then fmtFixed 2 (ns / 1000000) ++ "ms"
  else fmtFixed 2 (ns / 1000000000) ++ "s"

/-- Value formatting of one table cell in the Markdown report: names
containing `"time"` are durations (`"ms"` names printed raw with an `ms`
suffix, others via `format_duration`), all other names are plain numbers. -/
def fmtMetricValue (metric : String) (v : ℚ) : String :=
  if strContains "time" metric then
    if strContains "ms" metric then fmtFixed 2 v ++ "ms"
    else format_duration v
  else fmtFixed 2 v

/-- Status cell of a Markdown table row. -/
def statusOf (d : ComparisonRecord) : String :=
  if d.regression then "🔴 Regression"
  else if d.improved then "🟢 Improved"
  else "🟡 Similar"

/-- One row of the Markdown comparison table. -/
def rowLine (metric : String) (d : ComparisonRecord) : String :=
  "| " ++ metric ++ " | " ++ fmtMetricValue metric d.current ++ " | " ++
    fmtMetricValue metric d.baseline ++ " | " ++ fmtSigned 1 d.change_percent ++ "% | " ++
    statusOf d ++ " |"

/-- Header line of the regression summary section. -/
def regrHeaderLine (n : ℕ) : String :=
  "⚠️  **" ++ toString n ++ " regression(s) detected:**"

/-- One bullet of a summary list: metric name with signed percent change. -/
def bulletLine (metric : String) (change : ℚ) : String :=
  "- " ++ metric ++ ": " ++ fmtSigned 1 change ++ "%"

/-- Header line of the improvement summary section. -/
def imprHeaderLine (n : ℕ) : String :=
  "🎉 **" ++ toString n ++ " improvement(s):**"

/-- The stable-metrics count line of the summary. -/
def stableLine (n : ℤ) : String :=
  "✅ **" ++ toString n ++ " metric(s) stable** (< 10% change)"

/-- Fixed heading lines of the Markdown report (the generation timestamp is
passed in as `now`, embedding `datetime.now().strftime(...)`). -/
def markdownHeaderLines (now : String) : List String :=
  ["# 📊 Performance Benchmark Comparison", "",
   "**Generated**: " ++ now, "",
   "## 📈 Performance Changes", "",
   "| Metric | Current | Baseline | Change | Status |",
   "|--------|---------|----------|--------|--------|"]

/-- The stable-metric count computed by the source:
`len(comparison) - len(regressions) - len(improvements)`. -/
def stableCountOf (comparison : List (String × ComparisonRecord)) : ℤ :=
  (comparison.length : ℤ) - ((comparison.filter fun p => p.2.regression).length : ℤ) -
    ((comparison.filter fun p => p.2.improved).length : ℤ)

/-- Summary lines for regressions: present only when the regression list is
non-empty (`if regressions:` in the source). -/
def regressionBlock (comparison : List (String × ComparisonRecord)) : List String :=
  let regressions := comparison.filter fun p => p.2.regression
  if regressions.isEmpty then []
  else regrHeaderLine regressions.length ::
    ((regressions.map fun p => bulletLine p.1 p.2.change_percent) ++ [""])

/-- Summary lines for improvements: present only when the improvement list is
non-empty (`if improvements:` in the source). -/
def improvementBlock (comparison : List (String × ComparisonRecord)) : List String :=
  let improvements := comparison.filter fun p => p.2.improved
  if improvements.isEmpty then []
  else imprHeaderLine improvements.length ::
    ((improvements.map fun p => bulletLine p.1 p.2.change_percent) ++ [""])

/-- Stable-count summary line: present only when the count is positive
(`if stable_metrics > 0:` in the source). -/
def stableBlock (comparison : List (String × ComparisonRecord)) : List String :=
  if 0 < stableCountOf comparison then [stableLine (stableCountOf comparison)] else []

/-- All lines of the Markdown report, in order, as built by
`generate_markdown_report` before joining with newlines. -/
def markdownReportLines (now : String) (comparison : List (String × ComparisonRecord)) :
    List String :=
  markdownHeaderLines now ++ (comparison.map fun p => rowLine p.1 p.2) ++
    ["", "## 📋 Summary", ""] ++
    regressionBlock comparison ++ improvementBlock comparison ++ stableBlock comparison

/-- Embedding of `generate_markdown_report` (timestamp passed as `now`). -/
def generate_markdown_report (now : String) (comparison : List (String × ComparisonRecord)) :
    String :=
  String.intercalate "\n" (markdownReportLines now comparison)

/-- One per-metric block of the plain-text report. -/
def textBlock (p : String × ComparisonRecord) : List String :=
  let icon := if p.2.regression then "🔴" else if p.2.improved then "🟢" else "🟡"
  [icon ++ " " ++ p.1 ++ ":",
   "  Current:  " ++ fmtFixed 2 p.2.current,
   "  Baseline: " ++ fmtFixed 2 p.2.baseline,
   "  Change:   " ++ fmtSigned 1 p.2.change_percent ++ "%",
   ""]

/-- Embedding of `generate_text_report` (timestamp passed as `now`). -/
def generate_text_report (now : String) (comparison : List (String × ComparisonRecord)) :
    String :=
  String.intercalate "\n"
    (["Performance Benchmark Comparison",
      String.mk (List.replicate 35 '='),
      "Generated: " ++ now, ""] ++ (comparison.map textBlock).flatten)

/-- JSON values, the structured data handled by Python's `json` module. -/
inductive Json where
  | num (q : ℚ)
  | bool (b : Bool)
  | str (s : String)
  | arr (elems : List Json)
  | obj (members : List (String × Json))

/-- Modelled from the spec: the decimal text Python's `repr` produces for the
float values inside `json.dumps` output; on the rational model, integral
values print with a trailing `.0` and other values print exactly. -/
def ratRepr (q : ℚ) : String :=
  if q.den = 1 then toString q.num ++ ".0"
  else toString q.num ++ "/" ++ toString q.den

/-- Run of `n` spaces, for indentation. -/
def spacesStr (n : ℕ) : String :=
  String.mk (List.replicate n ' ')

mutual

/-- Modelled from the spec: Python's `json.dumps(comparison, indent=2)` — the
standard-library serializer, not repository code — rendering a JSON value
with stable two-space indentation. -/
def jsonDumps (indent : ℕ) : Json → String
  | Json.num q => ratRepr q
  | Json.bool b => if b then "true" else "false"
  | Json.str s => "\"" ++ s ++ "\""
  | Json.arr [] => "[]"
  | Json.arr (x :: xs) =>
      "[\n" ++ jsonDumpsItems (indent + 2) (x :: xs) ++ "\n" ++ spacesStr indent ++ "]"
  | Json.obj [] => "\x7b\x7d"
  | Json.obj (m :: ms) =>
      "\x7b\n" ++ jsonDumpsMembers (indent + 2) (m :: ms) ++ "\n" ++ spacesStr indent ++ "\x7d"

/-- Array items of `jsonDumps`, comma-and-newline separated. -/
def jsonDumpsItems (indent : ℕ) : List Json → String
  | [] => ""
  | [x] => spacesStr indent ++ jsonDumps indent x
  | x :: y :: rest =>
      spacesStr indent ++ jsonDumps indent x ++ ",\n" ++ jsonDumpsItems indent (y :: rest)

/-- Object members of `jsonDumps`, comma-and-newline separated. -/
def jsonDumpsMembers (indent : ℕ) : List (String × Json) → String
  | [] => ""
  | [m] => spacesStr indent ++ "\"" ++ m.1 ++ "\": " ++ jsonDumps indent m.2
  | m :: m₂ :: rest =>
      spacesStr indent ++ "\"" ++ m.1 ++ "\": " ++ jsonDumps indent m.2 ++ ",\n" ++
        jsonDumpsMembers indent (m₂ :: rest)

end

/-- The JSON value of one comparison record, exactly the dictionary the
source stores in the comparison mapping. -/
def recordToJson (d : ComparisonRecord) : Json :=
  Json.obj [("current", Json.num d.current), ("baseline", Json.num d.baseline),
            ("change_percent", Json.num d.change_percent), ("improved", Json.bool d.improved),
            ("regression", Json.bool d.regression)]

/-- The JSON value of the whole comparison mapping, the object that
`json.dumps` serializes in the `json` output format. -/
def comparisonToJson (comparison : List (String × ComparisonRecord)) : Json :=
  Json.obj (comparison.map fun p => (p.1, recordToJson p.2))

/-- Modelled from the spec: how parsing the serialized text back
(`json.loads`, standard-library code) materializes one record of the
comparison structure. -/
def recordOfJson : Json → Option ComparisonRecord
  | Json.obj [("current", Json.num c), ("baseline", Json.num b),
              ("change_percent", Json.num cp), ("improved", Json.bool i),
              ("regression", Json.bool r)] =>
      some { current := c, baseline := b, change_percent := cp, improved := i, regression := r }
  | _ => none

/-- Modelled from the spec: how parsing the serialized text back
materializes the whole comparison mapping. -/
def comparisonOfJson : Json → Option (List (String × ComparisonRecord))
  | Json.obj members => members.mapM fun p => (recordOfJson p.2).map fun r => (p.1, r)
  | _ => none

/-- Embedding of `generate_report`: dispatch on the output format. -/
def generate_report (now : String) (comparison : List (String × ComparisonRecord))
    (output_format : String) : String :=
  if output_format = "markdown" then generate_markdown_report now comparison
  else if output_format = "json" then jsonDumps 0 (comparisonToJson comparison)
  else generate_text_report now comparison

/-- Output channels of the process. -/
inductive Channel where
  | stdout
  | stderr
deriving DecidableEq

/-- Result of the loader: either a parsed document or a process exit. -/
inductive LoadResult where
  | ok (doc : BenchmarkDocument)
  | exited (code : ℕ)
deriving DecidableEq

/-- Embedding of `load_benchmark_data`.  The file system is a function from
paths to `none` (file missing), `some (Except.error e)` (content not valid
JSON, with decoder message `e`), or `some (Except.ok d)` (parsed document).
The returned list holds the diagnostics the function prints, tagged with the
channel they go to: the source uses bare `print(...)`, which writes to
standard output. -/
def load_benchmark_data (file_path : String)
    (fs : String → Option (Except String BenchmarkDocument)) :
    List (Channel × String) × LoadResult :=
  match fs file_path with
  | none =>
      ([(Channel.stdout, "❌ Benchmark file not found: " ++ file_path)], LoadResult.exited 1)
  | some (Except.error e) =>
      ([(Channel.stdout, "❌ Invalid JSON in " ++ file_path ++ ": " ++ e)], LoadResult.exited 1)
  | some (Except.ok d) => ([], LoadResult.ok d)

/-- Embedding of `main`, projected onto the process exit status: load both
files, extract both metric maps, compare, render the report, and exit 1 on
any of the fatal conditions or on detected regressions under the
`--fail-on-regression` flag; exit 0 otherwise. -/
def mainRun (now output_format current_path baseline_path : String)
    (fs : String → Option (Except String BenchmarkDocument))
    (fail_on_regression : Bool) : ℕ :=
  match (load_benchmark_data current_path fs).2 with
  | LoadResult.exited code => code
  | LoadResult.ok current_data =>
    match (load_benchmark_data baseline_path fs).2 with
    | LoadResult.exited code => code
    | LoadResult.ok baseline_data =>
      let current_metrics := extract_performance_metrics current_data
      let baseline_metrics := extract_performance_metrics baseline_data
      if current_metrics = [] then 1
      else if baseline_metrics = [] then 1
      else
        let comparison := compare_metrics current_metrics baseline_metrics
        if comparison = [] then 1
        else
          let _report := generate_report now comparison output_format
          if fail_on_regression && !(comparison.filter fun p => p.2.regression).isEmpty then 1
          else 0

/-- A load attempt that fails: the resource is missing or its content does
not parse. -/
def loadFails (r : Option (Except String BenchmarkDocument)) : Prop :=
  r = none ∨ ∃ e, r = some (Except.error e)

/-- The disjunction of fatal conditions after which `main` exits with
status 1: a failing load of either input, an empty extracted metric map on
either side, an empty comparison result, or the `--fail-on-regression` flag
set with at least one regression record. -/
def mainFailCondition (current_path baseline_path : String)
    (fs : String → Option (Except String BenchmarkDocument))
    (fail_on_regression : Bool) : Prop :=
  loadFails (fs current_path) ∨ loadFails (fs baseline_path) ∨
    ∃ current_data baseline_data,
      fs current_path = some (Except.ok current_data) ∧
      fs baseline_path = some (Except.ok baseline_data) ∧
      (extract_performance_metrics current_data = [] ∨
       extract_performance_metrics baseline_data = [] ∨
       compare_metrics (extract_performance_metrics current_data)
         (extract_performance_metrics baseline_data) = [] ∨
       (fail_on_regression = true ∧
        (compare_metrics (extract_performance_metrics current_data)
          (extract_performance_metrics baseline_data)).filter
            (fun p => p.2.regression) ≠ []))

theorem mem_dinsert {α : Type} (k : String) (v : α) (l : List (String × α)) (p : String × α)
    (h : p ∈ dinsert k v l) : p = (k, v) ∨ p ∈ l := by
  induction l with
  | nil => simpa [dinsert] using h
  | cons q rest ih =>
    obtain ⟨k₂, v₂⟩ := q
    simp only [dinsert] at h
    split at h
    · rcases List.mem_cons.1 h with h' | h'
      · exact Or.inl h'
      · exact Or.inr (List.mem_cons_of_mem _ h')
    · rcases List.mem_cons.1 h with h' | h'
      · exact Or.inr (h' ▸ List.mem_cons_self _ _)
      · rcases ih h' with h'' | h''
        · exact Or.inl h''
        · exact Or.inr (List.mem_cons_of_mem _ h'')

theorem dlookup_mem {α : Type} (k : String) (v : α) (l : List (String × α))
    (h : dlookup k l = some v) : (k, v) ∈ l := by
  induction l with
  | nil => simp [dlookup] at h
  | cons q rest ih =>
    obtain ⟨k₂, v₂⟩ := q
    simp only [dlookup] at h
    split at h
    · next heq =>
      injection h with hv
      subst hv; subst heq
      exact List.mem_cons_self _ _
    · exact List.mem_cons_of_mem _ (ih h)

theorem dlookup_isSome_iff {α : Type} (k : String) (l : List (String × α)) :
    (∃ v, dlookup k l = some v) ↔ k ∈ dkeys l := by
  induction l with
  | nil => simp [dlookup, dkeys]
  | cons q rest ih =>
    obtain ⟨k₂, v₂⟩ := q
    by_cases hk : k₂ = k
    · subst hk
      simp [dlookup, dkeys]
    · simp only [dlookup, if_neg hk, dkeys, List.map_cons, List.mem_cons]
      rw [show (∃ v, dlookup k rest = some v) ↔ k ∈ dkeys rest from ih]
      simp only [dkeys]
      exact ⟨fun h => Or.inr h, fun h => h.elim (fun he => absurd he.symm hk) id⟩

theorem mem_dkeys_dinsert {α : Type} (m k : String) (v : α) (l : List (String × α)) :
    m ∈ dkeys (dinsert k v l) ↔ m = k ∨ m ∈ dkeys l := by
  induction l with
  | nil => simp [dinsert, dkeys]
  | cons q rest ih =>
    obtain ⟨k₂, v₂⟩ := q
    simp only [dinsert]
    split
    · next heq =>
      subst heq
      simp only [dkeys, List.map_cons, List.mem_cons]
      tauto
    · simp only [dkeys, List.map_cons, List.mem_cons] at ih ⊢
      rw [ih]; tauto

/-- A record as built by `compare_metrics`: the image of `comparisonEntry`
for some current value and some strictly positive baseline value. -/
def goodRecord (r : ComparisonRecord) : Prop :=
  ∃ c b, 0 < b ∧ r = comparisonEntry c b

theorem compare_fold_good (base : List (String × ℚ)) (cur : List (String × ℚ)) :
    ∀ (acc : List (String × ComparisonRecord)),
      (∀ p ∈ acc, goodRecord p.2) →
      ∀ p ∈ List.foldl (compareStep base) acc cur, goodRecord p.2 := by
  induction cur with
  | nil => intro acc hacc p hp; rw [List.foldl_nil] at hp; exact hacc p hp
  | cons q rest ih =>
    intro acc hacc p hp
    rw [List.foldl_cons] at hp
    refine ih _ ?_ p hp
    intro p₂ hp₂
    unfold compareStep at hp₂
    split at hp₂
    · next b hq =>
      split at hp₂
      · next hb =>
        rcases mem_dinsert _ _ _ _ hp₂ with h | h
        · exact h ▸ ⟨q.2, b, hb, rfl⟩
        · exact hacc _ h
      · exact hacc _ hp₂
    · exact hacc _ hp₂

theorem compare_mem_good (cur base : List (String × ℚ)) (p : String × ComparisonRecord)
    (hp : p ∈ compare_metrics cur base) : goodRecord p.2 :=
  compare_fold_good base cur [] (by simp) p hp

/-- C1: for every metric present in the result of `compare_metrics`, the
record satisfies `change_percent = (current - baseline) / baseline * 100`,
`improved` holds iff the change is strictly negative, and `regression` holds
iff the change is strictly greater than 10 (so exactly +10 percent is not a
regression). -/
theorem compare_record_fields (current baseline : List (String × ℚ)) (metric : String)
    (r : ComparisonRecord) (h : dlookup metric (compare_metrics current baseline) = some r) :
    r.change_percent = (r.current - r.baseline) / r.baseline * 100 ∧
    (r.improved = true ↔ r.change_percent < 0) ∧
    (r.regression = true ↔ r.change_percent > 10) := by
  obtain ⟨c, b, hb, rfl⟩ := compare_mem_good current baseline _ (dlookup_mem _ _ _ h)
  refine ⟨rfl, ?_, ?_⟩ <;> simp [comparisonEntry, decide_eq_true_iff]

/-- Witness for C1 at the concrete comparison of `startup_time_ms` 12 versus
baseline 10. -/
theorem compare_record_fields_witness :
    (comparisonEntry 12 10).change_percent =
      ((comparisonEntry 12 10).current - (comparisonEntry 12 10).baseline) /
        (comparisonEntry 12 10).baseline * 100 ∧
    ((comparisonEntry 12 10).improved = true ↔ (comparisonEntry 12 10).change_percent < 0) ∧
    ((comparisonEntry 12 10).regression = true ↔ (comparisonEntry 12 10).change_percent > 10) :=
  compare_record_fields [("startup_time_ms", 12)] [("startup_time_ms", 10)] "startup_time_ms"
    (comparisonEntry 12 10) (by norm_num [compare_metrics, compareStep, dlookup, dinsert])

/-- C6: in every record produced by `compare_metrics`, the `improved` and
`regression` flags are never both true. -/
theorem compare_flags_exclusive (current baseline : List (String × ℚ)) (metric : String)
    (r : ComparisonRecord) (h : dlookup metric (compare_metrics current baseline) = some r) :
    ¬(r.improved = true ∧ r.regression = true) := by
  obtain ⟨c, b, hb, rfl⟩ := compare_mem_good current baseline _ (dlookup_mem _ _ _ h)
  rintro ⟨hi, hr⟩
  simp only [comparisonEntry, decide_eq_true_iff] at hi hr
  linarith

/-- Witness for C6 at the concrete comparison of a metric falling from 8 to
baseline 10. -/
theorem compare_flags_exclusive_witness :
    ¬((comparisonEntry 8 10).improved = true ∧ (comparisonEntry 8 10).regression = true) :=
  compare_flags_exclusive [("m", 8)] [("m", 10)] "m" (comparisonEntry 8 10)
    (by norm_num [compare_metrics, compareStep, dlookup, dinsert])

/-- C2 counterexample: a metric present in both maps whose baseline is -1
(not exactly 0) produces no comparison record, because the source guards
with `baseline_value > 0`, not `baseline_value != 0`. -/
theorem compare_negative_baseline_dropped :
    dlookup "m" (compare_metrics [("m", 1)] [("m", -1)]) = none ∧
    dlookup "m" [("m", (1 : ℚ))] = some 1 ∧
    dlookup "m" [("m", (-1 : ℚ))] = some (-1) ∧
    (-1 : ℚ) ≠ 0 := by
  refine ⟨?_, by norm_num [dlookup], by norm_num [dlookup], by norm_num⟩
  norm_num [compare_metrics, compareStep, dlookup]

theorem compare_fold_keys (base : List (String × ℚ)) (cur : List (String × ℚ)) :
    ∀ (acc : List (String × ComparisonRecord)) (m : String),
      m ∈ dkeys (List.foldl (compareStep base) acc cur) ↔
        m ∈ dkeys acc ∨ (m ∈ dkeys cur ∧ ∃ b, dlookup m base = some b ∧ 0 < b) := by
  induction cur with
  | nil => intro acc m; simp [dkeys]
  | cons q rest ih =>
    intro acc m
    obtain ⟨k, c⟩ := q
    rw [List.foldl_cons, ih]
    have hkeys : m ∈ dkeys ((k, c) :: rest) ↔ m = k ∨ m ∈ dkeys rest := by
      simp [dkeys]
    rw [hkeys]
    unfold compareStep
    by_cases hm : m = k
    · subst hm
      cases hq : dlookup m base with
      | none =>
        have hP : ¬∃ b, dlookup m base = some b ∧ 0 < b := by
          rintro ⟨b, hb, _⟩; rw [hq] at hb; exact Option.noConfusion hb
        simp only [hq]
        tauto
      | some b =>
        by_cases hb : 0 < b
        · have hP : ∃ b', dlookup m base = some b' ∧ 0 < b' := ⟨b, hq, hb⟩
          simp only [hq, if_pos hb, mem_dkeys_dinsert]
          tauto
        · simp only [hq, if_neg hb]
          have hP : ∀ b' : ℚ, some b = some b' → ¬0 < b' := by
            intro b' hb' hpos
            injection hb' with he
            exact hb (he ▸ hpos)
          constructor
          · rintro (h | ⟨-, b', hb', hpos⟩)
            · exact Or.inl h
            · exact absurd hpos (hP b' hb')
          · rintro (h | ⟨-, b', hb', hpos⟩)
            · exact Or.inl h
            · exact absurd hpos (hP b' hb')
    · cases hq : dlookup k base with
      | none => tauto
      | some b =>
        by_cases hb : 0 < b
        · simp only [if_pos hb, mem_dkeys_dinsert]
          tauto
        · simp only [if_neg hb]
          tauto

theorem compare_keys (current baseline : List (String × ℚ)) (m : String) :
    m ∈ dkeys (compare_metrics current baseline) ↔
      m ∈ dkeys current ∧ ∃ b, dlookup m baseline = some b ∧ 0 < b := by
  have h := compare_fold_keys baseline current [] m
  simpa [compare_metrics, dkeys] using h

/-- C2 (amended): `compare_metrics` produces a record for a metric exactly
when the metric is present in both maps and its baseline value is strictly
positive; metrics unique to one side and metrics with a non-positive
baseline are silently dropped. -/
theorem compare_membership_iff (current baseline : List (String × ℚ)) (metric : String) :
    (∃ r, dlookup metric (compare_metrics current baseline) = some r) ↔
      ((∃ c, dlookup metric current = some c) ∧
       (∃ b, dlookup metric baseline = some b ∧ 0 < b)) := by
  rw [dlookup_isSome_iff, compare_keys, dlookup_isSome_iff]

/-- The two-entry metric map every successful extraction produces:
`startup_time_ns` with the raw mean, `startup_time_ms` with the mean divided
by 1,000,000. -/
def pairOf (m : ℚ) : List (String × ℚ) :=
  [("startup_time_ns", m), ("startup_time_ms", m / 1000000)]

/-- The mean of the last bench (document order) whose name contains
"startup_time" and which has a `mean` field, if any: because later writes to
the two fixed metric keys overwrite earlier ones, this entry determines the
extraction result. -/
def lastMatchingMean : List Bench → Option ℚ
  | [] => none
  | b :: rest =>
      match lastMatchingMean rest with
      | some m => some m
      | none => if strContains "startup_time" (b.name.getD "") then b.mean else none

theorem lastMatchingMean_cons (b : Bench) (rest : List Bench) :
    lastMatchingMean (b :: rest) =
      match lastMatchingMean rest with
      | some m => some m
      | none => if strContains "startup_time" (b.name.getD "") then b.mean else none := rfl

theorem extractStep_pair (a : ℚ) (b : Bench) :
    extractStep (pairOf a) b =
      pairOf ((if strContains "startup_time" (b.name.getD "") then b.mean else none).getD a) := by
  unfold extractStep
  by_cases hname : strContains "startup_time" (b.name.getD "")
  · simp only [if_pos hname]
    cases hm : b.mean with
    | none => simp
    | some m => simp [pairOf, dinsert]
  · simp [if_neg hname]

theorem extract_fold_pair (benches : List Bench) :
    ∀ a : ℚ, List.foldl extractStep (pairOf a) benches =
      pairOf ((lastMatchingMean benches).getD a) := by
  induction benches with
  | nil => intro a; rfl
  | cons b rest ih =>
    intro a
    rw [List.foldl_cons, extractStep_pair, ih, lastMatchingMean_cons]
    cases hr : lastMatchingMean rest with
    | some m => simp
    | none => simp

theorem extract_fold_nil_eq (benches : List Bench) :
    List.foldl extractStep [] benches =
      match lastMatchingMean benches with
      | none => []
      | some m => pairOf m := by
  induction benches with
  | nil => rfl
  | cons b rest ih =>
    rw [List.foldl_cons]
    by_cases hname : strContains "startup_time" (b.name.getD "")
    · cases hm : b.mean with
      | none =>
        have hstep : extractStep [] b = [] := by simp [extractStep, hname, hm]
        rw [hstep, ih]
        have hlmm : lastMatchingMean (b :: rest) = lastMatchingMean rest := by
          rw [lastMatchingMean_cons]
          cases lastMatchingMean rest <;> simp [hname, hm]
        rw [hlmm]
      | some m =>
        have hstep : extractStep [] b = pairOf m := by
          simp [extractStep, hname, hm, dinsert, pairOf]
        rw [hstep, extract_fold_pair]
        have hlmm : lastMatchingMean (b :: rest) = some ((lastMatchingMean rest).getD m) := by
          rw [lastMatchingMean_cons]
          cases lastMatchingMean rest <;> simp [hname, hm]
        rw [hlmm]
    · have hstep : extractStep [] b = [] := by simp [extractStep, hname]
      rw [hstep, ih]
      have hlmm : lastMatchingMean (b :: rest) = lastMatchingMean rest := by
        rw [lastMatchingMean_cons]
        cases lastMatchingMean rest <;> simp [hname]
      rw [hlmm]

theorem extract_shape (d : BenchmarkDocument) :
    extract_performance_metrics d = [] ∨
      ∃ m, extract_performance_metrics d = pairOf m := by
  obtain ⟨bo⟩ := d
  cases bo with
  | none => exact Or.inl rfl
  | some bs =>
    rw [show extract_performance_metrics (BenchmarkDocument.mk (some bs)) =
          List.foldl extractStep [] bs from rfl,
        extract_fold_nil_eq]
    cases lastMatchingMean bs with
    | none => exact Or.inl rfl
    | some m => exact Or.inr ⟨m, rfl⟩

/-- C3 counterexample: a document with two entries whose names contain
"startup_time" (means 1 and 2).  The second entry overwrites the first
(Python-dict last write wins on the two fixed metric keys), so the first
matching entry, despite containing "startup_time" and having a mean, does
not have its mean (1) in the result: the claim's "for every entry" reading
fails. -/
theorem extract_not_per_entry :
    strContains "startup_time" "startup_time_a" = true ∧
    (Bench.mk (some "startup_time_a") (some 1)).mean = some 1 ∧
    dlookup "startup_time_ns"
      (extract_performance_metrics
        (BenchmarkDocument.mk
          (some [Bench.mk (some "startup_time_a") (some 1),
                 Bench.mk (some "startup_time_b") (some 2)]))) = some 2 ∧
    ¬ dlookup "startup_time_ns"
      (extract_performance_metrics
        (BenchmarkDocument.mk
          (some [Bench.mk (some "startup_time_a") (some 1),
                 Bench.mk (some "startup_time_b") (some 2)]))) = some 1 := by
  have ha : strContains "startup_time" "startup_time_a" = true := by decide
  have hb : strContains "startup_time" "startup_time_b" = true := by decide
  have hl : lastMatchingMean
      [Bench.mk (some "startup_time_a") (some 1), Bench.mk (some "startup_time_b") (some 2)] =
      some 2 := by
    simp [lastMatchingMean, ha, hb]
  have he : extract_performance_metrics
      (BenchmarkDocument.mk
        (some [Bench.mk (some "startup_time_a") (some 1),
               Bench.mk (some "startup_time_b") (some 2)])) = pairOf 2 := by
    show List.foldl extractStep [] _ = _
    rw [extract_fold_nil_eq, hl]
  refine ⟨ha, rfl, ?_, ?_⟩
  · rw [he]; simp [pairOf, dlookup]
  · rw [he]
    simp only [pairOf, dlookup, if_pos rfl]
    intro h
    injection h with h
    norm_num at h

/-- C3 (amended): extraction returns the empty map when the document has no
top-level `benches` key; otherwise, among the entries whose name contains
"startup_time" and which have a `mean` field, the last one in document
order, with mean m, determines the entire result: exactly the two metrics
`startup_time_ns = m` and `startup_time_ms = m / 1,000,000` (and the empty
map when no entry qualifies).  In particular a single entry named
"my_startup_time_bench" with mean 5,000,000 yields exactly
`startup_time_ns = 5,000,000` and `startup_time_ms = 5`. -/
theorem extract_metrics_characterization (d : BenchmarkDocument) :
    (d.benches = none → extract_performance_metrics d = []) ∧
    (∀ benches, d.benches = some benches →
      (lastMatchingMean benches = none → extract_performance_metrics d = []) ∧
      (∀ m, lastMatchingMean benches = some m →
        extract_performance_metrics d =
          [("startup_time_ns", m), ("startup_time_ms", m / 1000000)])) ∧
    extract_performance_metrics
        (BenchmarkDocument.mk (some [Bench.mk (some "my_startup_time_bench") (some 5000000)])) =
      [("startup_time_ns", 5000000), ("startup_time_ms", 5)] := by
  refine ⟨?_, ?_, ?_⟩
  · intro h
    unfold extract_performance_metrics
    rw [h]
  · intro benches hb
    constructor
    · intro hnone
      unfold extract_performance_metrics
      rw [hb]
      show List.foldl extractStep [] benches = []
      rw [extract_fold_nil_eq, hnone]
    · intro m hm
      unfold extract_performance_metrics
      rw [hb]
      show List.foldl extractStep [] benches = _
      rw [extract_fold_nil_eq, hm]
      rfl
  · have hname : strContains "startup_time" "my_startup_time_bench" = true := by decide
    have hl : lastMatchingMean [Bench.mk (some "my_startup_time_bench") (some 5000000)] =
        some 5000000 := by
      simp [lastMatchingMean, hname]
    show List.foldl extractStep [] _ = _
    rw [extract_fold_nil_eq, hl]
    show pairOf 5000000 = _
    unfold pairOf
    norm_num

/-- Witness for C3's amended characterization at the spec's example
document. -/
theorem extract_metrics_characterization_witness :
    extract_performance_metrics
        (BenchmarkDocument.mk (some [Bench.mk (some "my_startup_time_bench") (some 5000000)])) =
      [("startup_time_ns", 5000000), ("startup_time_ms", 5000000 / 1000000)] :=
  ((extract_metrics_characterization
      (BenchmarkDocument.mk
        (some [Bench.mk (some "my_startup_time_bench") (some 5000000)]))).2.1
    [Bench.mk (some "my_startup_time_bench") (some 5000000)] rfl).2 5000000
    (by simp [lastMatchingMean,
          show strContains "startup_time" "my_startup_time_bench" = true from by decide])

theorem compare_pairs (a b : ℚ) :
    compare_metrics (pairOf a) (pairOf b) =
      if 0 < b then
        [("startup_time_ns", comparisonEntry a b),
         ("startup_time_ms", comparisonEntry (a / 1000000) (b / 1000000))]
      else [] := by
  have hns : dlookup "startup_time_ns" (pairOf b) = some b := by simp [pairOf, dlookup]
  have hms : dlookup "startup_time_ms" (pairOf b) = some (b / 1000000) := by
    simp [pairOf, dlookup]
  have hiff : 0 < b / 1000000 ↔ 0 < b := by
    constructor
    · intro h
      rcases div_pos_iff.mp h with ⟨h1, _⟩ | ⟨_, h2⟩
      · exact h1
      · norm_num at h2
    · intro h
      positivity
  by_cases hb : 0 < b
  · have hb2 : 0 < b / 1000000 := hiff.mpr hb
    simp [compare_metrics, pairOf, compareStep, dlookup, hb, hb2, dinsert]
  · have hb2 : ¬0 < b / 1000000 := fun h => hb (hiff.mp h)
    simp [compare_metrics, pairOf, compareStep, dlookup, hb, hb2]

/-- C10: every extracted metric map has keys only among `startup_time_ns`
and `startup_time_ms`; the two keys are both present or both absent; when
present, `startup_time_ns` is 1,000,000 times `startup_time_ms`; and in a
comparison of two extracted maps, the two keys' records carry the same
`change_percent`. -/
theorem extract_metric_pairing (d₁ d₂ : BenchmarkDocument) :
    (∀ p ∈ extract_performance_metrics d₁,
        p.1 = "startup_time_ns" ∨ p.1 = "startup_time_ms") ∧
    ((∃ m, dlookup "startup_time_ns" (extract_performance_metrics d₁) = some m) ↔
      (∃ m, dlookup "startup_time_ms" (extract_performance_metrics d₁) = some m)) ∧
    (∀ m, dlookup "startup_time_ns" (extract_performance_metrics d₁) = some m →
        dlookup "startup_time_ms" (extract_performance_metrics d₁) = some (m / 1000000) ∧
        m = 1000000 * (m / 1000000)) ∧
    (∀ r₁ r₂,
        dlookup "startup_time_ns"
          (compare_metrics (extract_performance_metrics d₁)
            (extract_performance_metrics d₂)) = some r₁ →
        dlookup "startup_time_ms"
          (compare_metrics (extract_performance_metrics d₁)
            (extract_performance_metrics d₂)) = some r₂ →
        r₁.change_percent = r₂.change_percent) := by
  rcases extract_shape d₁ with h₁ | ⟨a, h₁⟩
  · rw [h₁]
    refine ⟨by simp, by simp [dlookup], by simp [dlookup], ?_⟩
    intro r₁ r₂ hl₁ hl₂
    rw [show compare_metrics [] (extract_performance_metrics d₂) = [] from rfl] at hl₁
    simp [dlookup] at hl₁
  · rw [h₁]
    refine ⟨?_, ?_, ?_, ?_⟩
    · intro p hp
      rcases List.mem_cons.1 hp with h | h
      · exact Or.inl (by rw [h])
      · rcases List.mem_cons.1 h with h' | h'
        · exact Or.inr (by rw [h'])
        · simp at h'
    · constructor
      · intro _
        exact ⟨a / 1000000, by simp [pairOf, dlookup]⟩
      · intro _
        exact ⟨a, by simp [pairOf, dlookup]⟩
    · intro m hm
      have ha : m = a := by
        simp [pairOf, dlookup] at hm
        exact hm.symm
      subst ha
      constructor
      · simp [pairOf, dlookup]
      · field_simp
    · intro r₁ r₂ hl₁ hl₂
      rcases extract_shape d₂ with h₂ | ⟨b, h₂⟩
      · rw [h₂] at hl₁
        rw [show compare_metrics (pairOf a) [] = [] from rfl] at hl₁
        simp [dlookup] at hl₁
      · rw [h₂, compare_pairs] at hl₁ hl₂
        by_cases hb : 0 < b
        · rw [if_pos hb] at hl₁ hl₂
          simp only [dlookup, if_pos rfl] at hl₁
          have hne : ("startup_time_ns" : String) ≠ "startup_time_ms" := by decide
          simp only [dlookup, if_neg hne, if_pos rfl] at hl₂
          injection hl₁ with hr₁
          injection hl₂ with hr₂
          rw [← hr₁, ← hr₂]
          show (a - b) / b * 100 = (a / 1000000 - b / 1000000) / (b / 1000000) * 100
          have hb0 : b ≠ 0 := ne_of_gt hb
          field_simp
        · rw [if_neg hb] at hl₁
          simp [dlookup] at hl₁

/-- Witness for C10: the pairing conclusion at a concrete document with a
single `startup_time` entry of mean 2,000,000. -/
theorem extract_metric_pairing_witness :
    dlookup "startup_time_ms"
        (extract_performance_metrics
          (BenchmarkDocument.mk (some [Bench.mk (some "startup_time") (some 2000000)]))) =
      some (2000000 / 1000000) ∧
    (2000000 : ℚ) = 1000000 * (2000000 / 1000000) := by
  have hl : lastMatchingMean [Bench.mk (some "startup_time") (some 2000000)] =
      some 2000000 := by
    simp [lastMatchingMean, show strContains "startup_time" "startup_time" = true from by decide]
  have he : extract_performance_metrics
      (BenchmarkDocument.mk (some [Bench.mk (some "startup_time") (some 2000000)])) =
      pairOf 2000000 := by
    show List.foldl extractStep [] _ = _
    rw [extract_fold_nil_eq, hl]
  exact (extract_metric_pairing
      (BenchmarkDocument.mk (some [Bench.mk (some "startup_time") (some 2000000)]))
      (BenchmarkDocument.mk none)).2.2.1 2000000 (by rw [he]; simp [pairOf, dlookup])

theorem fmtFixed_999 : fmtFixed 2 999 = "999.00" := by
  have h : round ((999 : ℚ) * (10 : ℚ) ^ 2) = 99900 := by norm_num [round_eq]
  simp only [fmtFixed, h]
  decide

theorem fmtFixed_1000_div : fmtFixed 2 ((1000 : ℚ) / 1000) = "1.00" := by
  have h : round ((1000 : ℚ) / 1000 * (10 : ℚ) ^ 2) = 100 := by norm_num [round_eq]
  simp only [fmtFixed, h]
  decide

theorem fmtFixed_999999_div : fmtFixed 2 ((999999 : ℚ) / 1000) = "1000.00" := by
  have h : round ((999999 : ℚ) / 1000 * (10 : ℚ) ^ 2) = 100000 := by norm_num [round_eq]
  simp only [fmtFixed, h]
  decide

theorem fmtFixed_1000000_div : fmtFixed 2 ((1000000 : ℚ) / 1000000) = "1.00" := by
  have h : round ((1000000 : ℚ) / 1000000 * (10 : ℚ) ^ 2) = 100 := by norm_num [round_eq]
  simp only [fmtFixed, h]
  decide

theorem fmtFixed_999999999_div : fmtFixed 2 ((999999999 : ℚ) / 1000000) = "1000.00" := by
  have h : round ((999999999 : ℚ) / 1000000 * (10 : ℚ) ^ 2) = 100000 := by norm_num [round_eq]
  simp only [fmtFixed, h]
  decide

theorem fmtFixed_1000000000_div : fmtFixed 2 ((1000000000 : ℚ) / 1000000000) = "1.00" := by
  have h : round ((1000000000 : ℚ) / 1000000000 * (10 : ℚ) ^ 2) = 100 := by norm_num [round_eq]
  simp only [fmtFixed, h]
  decide

/-- C5: `format_duration` buckets with inclusive-below boundaries — below
1000 two decimals with "ns", below 1,000,000 the value over 1000 with "μs",
below 1,000,000,000 the value over 1,000,000 with "ms", otherwise the value
over 1,000,000,000 with "s" — together with the six boundary examples
999 → "999.00ns", 1000 → "1.00μs", 999999 → "1000.00μs", 1000000 → "1.00ms",
999999999 → "1000.00ms" and 1000000000 → "1.00s". -/
theorem format_duration_spec (ns : ℚ) (_hns : 0 ≤ ns) :
    (ns < 1000 → format_duration ns = fmtFixed 2 ns ++ "ns") ∧
    (1000 ≤ ns → ns < 1000000 → format_duration ns = fmtFixed 2 (ns / 1000) ++ "μs") ∧
    (1000000 ≤ ns → ns < 1000000000 →
      format_duration ns = fmtFixed 2 (ns / 1000000) ++ "ms") ∧
    (1000000000 ≤ ns → format_duration ns = fmtFixed 2 (ns / 1000000000) ++ "s") ∧
    format_duration 999 = "999.00ns" ∧
    format_duration 1000 = "1.00μs" ∧
    format_duration 999999 = "1000.00μs" ∧
    format_duration 1000000 = "1.00ms" ∧
    format_duration 999999999 = "1000.00ms" ∧
    format_duration 1000000000 = "1.00s" := by
  refine ⟨?_, ?_, ?_, ?_, ?_, ?_, ?_, ?_, ?_, ?_⟩
  · intro h
    rw [format_duration, if_pos h]
  · intro h1 h2
    rw [format_duration, if_neg (not_lt.mpr h1), if_pos h2]
  · intro h1 h2
    rw [format_duration, if_neg (not_lt.mpr (by linarith)), if_neg (not_lt.mpr h1), if_pos h2]
  · intro h1
    rw [format_duration, if_neg (not_lt.mpr (by linarith)), if_neg (not_lt.mpr (by linarith)),
      if_neg (not_lt.mpr h1)]
  · rw [format_duration, if_pos (by norm_num), fmtFixed_999]
    rfl
  · rw [format_duration, if_neg (by norm_num), if_pos (by norm_num), fmtFixed_1000_div]
    rfl
  · rw [format_duration, if_neg (by norm_num), if_pos (by norm_num), fmtFixed_999999_div]
    rfl
  · rw [format_duration, if_neg (by norm_num), if_neg (by norm_num), if_pos (by norm_num),
      fmtFixed_1000000_div]
    rfl
  · rw [format_duration, if_neg (by norm_num), if_neg (by norm_num), if_pos (by norm_num),
      fmtFixed_999999999_div]
    rfl
  · rw [format_duration, if_neg (by norm_num), if_neg (by norm_num), if_neg (by norm_num),
      fmtFixed_1000000000_div]
    rfl

/-- Witness for C5 at the non-negative input 999. -/
theorem format_duration_spec_witness :
    (0 : ℚ) ≤ 999 ∧ format_duration 999 = "999.00ns" :=
  ⟨by norm_num, (format_duration_spec 999 (by norm_num)).2.2.2.2.1⟩

theorem mainRun_zero_or_one (now output_format current_path baseline_path : String)
    (fs : String → Option (Except String BenchmarkDocument)) (fail_on_regression : Bool) :
    mainRun now output_format current_path baseline_path fs fail_on_regression = 0 ∨
    mainRun now output_format current_path baseline_path fs fail_on_regression = 1 := by
  unfold mainRun load_benchmark_data
  cases fs current_path with
  | none => exact Or.inr rfl
  | some r₁ =>
    cases r₁ with
    | error e => exact Or.inr rfl
    | ok d₁ =>
      cases fs baseline_path with
      | none => exact Or.inr rfl
      | some r₂ =>
        cases r₂ with
        | error e => exact Or.inr rfl
        | ok d₂ =>
          simp only
          split_ifs <;> simp

theorem loadFails_not_ok (d : BenchmarkDocument) : ¬loadFails (some (Except.ok d)) := by
  rintro (h | ⟨e, h⟩)
  · exact Option.noConfusion h
  · injection h with h
    exact Except.noConfusion h


/-- C4: `main` exits with status 1 exactly when an input file is missing or
malformed, an extracted metric map is empty on either side, the comparison
result is empty, or the `--fail-on-regression` flag is set and at least one
record has `regression` true; in every other run it exits with status 0. -/
theorem main_exit_status (now output_format current_path baseline_path : String)
    (fs : String → Option (Except String BenchmarkDocument)) (fail_on_regression : Bool) :
    (mainRun now output_format current_path baseline_path fs fail_on_regression = 1 ↔
      mainFailCondition current_path baseline_path fs fail_on_regression) ∧
    (mainRun now output_format current_path baseline_path fs fail_on_regression = 0 ↔
      ¬mainFailCondition current_path baseline_path fs fail_on_regression) := by
  have hmain : mainRun now output_format current_path baseline_path fs fail_on_regression = 1 ↔
      mainFailCondition current_path baseline_path fs fail_on_regression := by
    unfold mainRun mainFailCondition load_benchmark_data
    cases hc : fs current_path with
    | none => exact iff_of_true rfl (Or.inl (Or.inl rfl))
    | some r₁ =>
      cases r₁ with
      | error e => exact iff_of_true rfl (Or.inl (Or.inr ⟨e, rfl⟩))
      | ok d₁ =>
        cases hb : fs baseline_path with
        | none => exact iff_of_true rfl (Or.inr (Or.inl (Or.inl rfl)))
        | some r₂ =>
          cases r₂ with
          | error e => exact iff_of_true rfl (Or.inr (Or.inl (Or.inr ⟨e, rfl⟩)))
          | ok d₂ =>
            have hnotc : ¬loadFails (some (Except.ok d₁)) := loadFails_not_ok d₁
            have hnotb : ¬loadFails (some (Except.ok d₂)) := loadFails_not_ok d₂
            simp only
            split_ifs with h1 h2 h3 h4
            · exact iff_of_true rfl (Or.inr (Or.inr ⟨d₁, d₂, rfl, rfl, Or.inl h1⟩))
            · exact iff_of_true rfl (Or.inr (Or.inr ⟨d₁, d₂, rfl, rfl, Or.inr (Or.inl h2)⟩))
            · exact iff_of_true rfl
                (Or.inr (Or.inr ⟨d₁, d₂, rfl, rfl, Or.inr (Or.inr (Or.inl h3))⟩))
            · rcases Bool.and_eq_true _ _ |>.mp h4 with ⟨hflag, hne⟩
              have hne' : (compare_metrics (extract_performance_metrics d₁)
                  (extract_performance_metrics d₂)).filter (fun p => p.2.regression) ≠ [] := by
                intro hempty
                rw [Bool.not_eq_true', List.isEmpty_eq_false] at hne
                exact hne hempty
              exact iff_of_true rfl
                (Or.inr (Or.inr ⟨d₁, d₂, rfl, rfl,
                  Or.inr (Or.inr (Or.inr ⟨hflag, hne'⟩))⟩))
            · refine iff_of_false (by norm_num) ?_
              rintro (h | h | ⟨c, b, hc', hb', hrest⟩)
              · exact hnotc h
              · exact hnotb h
              · injection hc' with hc'
                injection hb' with hb'
                injection hc' with hc'
                injection hb' with hb'
                subst hc'
                subst hb'
                rcases hrest with h | h | h | ⟨hflag, hne⟩
                · exact h1 h
                · exact h2 h
                · exact h3 h
                · apply h4
                  rw [Bool.and_eq_true]
                  refine ⟨hflag, ?_⟩
                  rw [Bool.not_eq_true', List.isEmpty_eq_false]
                  exact hne
  refine ⟨hmain, ?_, ?_⟩
  · intro h0 hcond
    rw [hmain.mpr hcond] at h0
    exact Nat.noConfusion h0
  · intro hcond
    rcases mainRun_zero_or_one now output_format current_path baseline_path fs
        fail_on_regression with h | h
    · exact h
    · exact absurd (hmain.mp h) hcond

/-- C9 counterexample: on a missing file the loader emits its diagnostic to
standard output (the source uses bare `print`), not to the error stream, so
the claim's "emits to the error stream" fails; it does exit with status 1. -/
theorem load_failure_diagnostic_on_stdout :
    (load_benchmark_data "current.json" (fun _ => none)).1 =
      [(Channel.stdout, "❌ Benchmark file not found: current.json")] ∧
    Channel.stdout ≠ Channel.stderr ∧
    (load_benchmark_data "current.json" (fun _ => none)).2 = LoadResult.exited 1 := by
  refine ⟨rfl, by decide, rfl⟩

/-- C9 (amended): whenever the loader fails — the resource does not exist,
or its content is not valid structured data — it emits one human-readable
diagnostic to standard output (the source prints with `print`, which goes to
standard output, not the error stream), terminates with exit status 1, and
never returns a document. -/
theorem load_failure_behaviour (file_path : String)
    (fs : String → Option (Except String BenchmarkDocument))
    (h : fs file_path = none ∨ ∃ e, fs file_path = some (Except.error e)) :
    (∃ msg, (load_benchmark_data file_path fs).1 = [(Channel.stdout, msg)]) ∧
    (load_benchmark_data file_path fs).2 = LoadResult.exited 1 ∧
    ∀ d, (load_benchmark_data file_path fs).2 ≠ LoadResult.ok d := by
  rcases h with h | ⟨e, h⟩ <;>
    · unfold load_benchmark_data
      rw [h]
      exact ⟨⟨_, rfl⟩, rfl, fun d hd => LoadResult.noConfusion hd⟩

/-- Witness for C9's amended behaviour on a file system with no files. -/
theorem load_failure_behaviour_witness :
    (∃ msg, (load_benchmark_data "missing.json" (fun _ => none)).1 =
      [(Channel.stdout, msg)]) ∧
    (load_benchmark_data "missing.json" (fun _ => none)).2 = LoadResult.exited 1 ∧
    ∀ d, (load_benchmark_data "missing.json" (fun _ => none)).2 ≠ LoadResult.ok d :=
  load_failure_behaviour "missing.json" (fun _ => none) (Or.inl rfl)

theorem recordOfJson_recordToJson (d : ComparisonRecord) :
    recordOfJson (recordToJson d) = some d := by
  cases d
  rfl

theorem comparisonOfJson_comparisonToJson (comparison : List (String × ComparisonRecord)) :
    comparisonOfJson (comparisonToJson comparison) = some comparison := by
  induction comparison with
  | nil => rfl
  | cons p rest ih =>
    obtain ⟨k, d⟩ := p
    have ih' : ((rest.map fun p => (p.1, recordToJson p.2)).mapM
        fun p => (recordOfJson p.2).map fun r => (p.1, r)) = some rest := ih
    show (((k, recordToJson d) :: rest.map fun p => (p.1, recordToJson p.2)).mapM
        fun p => (recordOfJson p.2).map fun r => (p.1, r)) = some ((k, d) :: rest)
    rw [List.mapM_cons, recordOfJson_recordToJson, ih']
    rfl

/-- C8: in the `json` output format the report is exactly the serialized
comparison mapping (`comparisonToJson`, rendered by the modelled
`json.dumps`), and parsing that structure back (`comparisonOfJson`, the
modelled `json.loads`) returns the in-memory comparison mapping unchanged —
the round-trip is lossless. -/
theorem comparison_json_roundtrip (now : String)
    (comparison : List (String × ComparisonRecord)) :
    generate_report now comparison "json" = jsonDumps 0 (comparisonToJson comparison) ∧
    comparisonOfJson (comparisonToJson comparison) = some comparison :=
  ⟨rfl, comparisonOfJson_comparisonToJson comparison⟩

theorem strData_append (s t : String) : (s ++ t).data = s.data ++ t.data := by
  cases s
  cases t
  rfl

theorem head?_append_left {α : Type} (c : α) (l₁ l₂ : List α) (h : l₁.head? = some c) :
    (l₁ ++ l₂).head? = some c := by
  cases l₁ with
  | nil => simp at h
  | cons a t => simpa using h

theorem regrHeaderLine_head (n : ℕ) : (regrHeaderLine n).data.head? = some '⚠' := by
  unfold regrHeaderLine
  simp only [strData_append]
  repeat apply head?_append_left
  decide

theorem imprHeaderLine_head (n : ℕ) : (imprHeaderLine n).data.head? = some '🎉' := by
  unfold imprHeaderLine
  simp only [strData_append]
  repeat apply head?_append_left
  decide

theorem stableLine_head (n : ℤ) : (stableLine n).data.head? = some '✅' := by
  unfold stableLine
  simp only [strData_append]
  repeat apply head?_append_left
  decide

theorem bulletLine_head (metric : String) (change : ℚ) :
    (bulletLine metric change).data.head? = some '-' := by
  unfold bulletLine
  simp only [strData_append]
  repeat apply head?_append_left
  decide

theorem rowLine_head (metric : String) (d : ComparisonRecord) :
    (rowLine metric d).data.head? = some '|' := by
  unfold rowLine
  simp only [strData_append]
  repeat apply head?_append_left
  decide

theorem generatedLine_head (now : String) :
    ("**Generated**: " ++ now).data.head? = some '*' := by
  simp only [strData_append]
  apply head?_append_left
  decide

theorem mem_markdownHeaderLines_head (now : String) (l : String)
    (h : l ∈ markdownHeaderLines now) :
    l.data.head? = some '#' ∨ l.data.head? = some '*' ∨ l.data.head? = some '|' ∨
      l.data.head? = none := by
  simp only [markdownHeaderLines, List.mem_cons, List.not_mem_nil, or_false] at h
  rcases h with rfl | rfl | rfl | rfl | rfl | rfl | rfl | rfl
  · exact Or.inl (by decide)
  · exact Or.inr (Or.inr (Or.inr rfl))
  · exact Or.inr (Or.inl (generatedLine_head now))
  · exact Or.inr (Or.inr (Or.inr rfl))
  · exact Or.inl (by decide)
  · exact Or.inr (Or.inr (Or.inr rfl))
  · exact Or.inr (Or.inr (Or.inl (by decide)))
  · exact Or.inr (Or.inr (Or.inl (by decide)))

theorem mem_regressionBlock_head (comparison : List (String × ComparisonRecord)) (l : String)
    (h : l ∈ regressionBlock comparison) :
    l.data.head? = some '⚠' ∨ l.data.head? = some '-' ∨ l.data.head? = none := by
  simp only [regressionBlock] at h
  split at h
  · exact absurd h (List.not_mem_nil l)
  · rcases List.mem_cons.1 h with h' | h'
    · subst h'
      exact Or.inl (regrHeaderLine_head _)
    · rcases List.mem_append.1 h' with h'' | h''
      · rcases List.mem_map.1 h'' with ⟨p, -, rfl⟩
        exact Or.inr (Or.inl (bulletLine_head _ _))
      · rcases List.mem_singleton.1 h'' with rfl
        exact Or.inr (Or.inr rfl)

theorem mem_improvementBlock_head (comparison : List (String × ComparisonRecord)) (l : String)
    (h : l ∈ improvementBlock comparison) :
    l.data.head? = some '🎉' ∨ l.data.head? = some '-' ∨ l.data.head? = none := by
  simp only [improvementBlock] at h
  split at h
  · exact absurd h (List.not_mem_nil l)
  · rcases List.mem_cons.1 h with h' | h'
    · subst h'
      exact Or.inl (imprHeaderLine_head _)
    · rcases List.mem_append.1 h' with h'' | h''
      · rcases List.mem_map.1 h'' with ⟨p, -, rfl⟩
        exact Or.inr (Or.inl (bulletLine_head _ _))
      · rcases List.mem_singleton.1 h'' with rfl
        exact Or.inr (Or.inr rfl)

theorem mem_stableBlock_head (comparison : List (String × ComparisonRecord)) (l : String)
    (h : l ∈ stableBlock comparison) : l.data.head? = some '✅' := by
  simp only [stableBlock] at h
  split at h
  · rcases List.mem_singleton.1 h with rfl
    exact stableLine_head _
  · exact absurd h (List.not_mem_nil l)

theorem report_line_heads (now : String) (comparison : List (String × ComparisonRecord))
    (l : String) (h : l ∈ markdownReportLines now comparison) :
    (l.data.head? = some '⚠' → l ∈ regressionBlock comparison) ∧
    (l.data.head? = some '🎉' → l ∈ improvementBlock comparison) ∧
    (l.data.head? = some '✅' → l ∈ stableBlock comparison) := by
  unfold markdownReportLines at h
  simp only [List.mem_append] at h
  rcases h with ((((h | h) | h) | h) | h) | h
  · have hh := mem_markdownHeaderLines_head now l h
    refine ⟨?_, ?_, ?_⟩ <;> intro hx <;>
      (rcases hh with h' | h' | h' | h' <;> rw [h'] at hx <;> exact absurd hx (by decide))
  · rcases List.mem_map.1 h with ⟨p, -, rfl⟩
    have h' := rowLine_head p.1 p.2
    refine ⟨?_, ?_, ?_⟩ <;> intro hx <;> rw [h'] at hx <;> exact absurd hx (by decide)
  · rcases List.mem_cons.1 h with rfl | h'
    · refine ⟨?_, ?_, ?_⟩ <;> intro hx <;> exact absurd hx (by decide)
    · rcases List.mem_cons.1 h' with rfl | h''
      · refine ⟨?_, ?_, ?_⟩ <;> intro hx <;> exact absurd hx (by decide)
      · rcases List.mem_singleton.1 h'' with rfl
        refine ⟨?_, ?_, ?_⟩ <;> intro hx <;> exact absurd hx (by decide)
  · refine ⟨fun _ => h, ?_, ?_⟩ <;> intro hx <;>
      (rcases mem_regressionBlock_head comparison l h with h' | h' | h' <;> rw [h'] at hx <;>
        exact absurd hx (by decide))
  · refine ⟨?_, fun _ => h, ?_⟩ <;> intro hx <;>
      (rcases mem_improvementBlock_head comparison l h with h' | h' | h' <;> rw [h'] at hx <;>
        exact absurd hx (by decide))
  · have h' := mem_stableBlock_head comparison l h
    refine ⟨?_, ?_, fun _ => h⟩ <;> intro hx <;> rw [h'] at hx <;> exact absurd hx (by decide)

theorem isEmpty_false_of_ne {α : Type} (l : List α) (h : l ≠ []) : l.isEmpty = false := by
  cases l
  · exact absurd rfl h
  · rfl

theorem regrHeader_mem_iff (now : String) (comparison : List (String × ComparisonRecord)) :
    regrHeaderLine ((comparison.filter fun p => p.2.regression).length) ∈
        markdownReportLines now comparison ↔
      (comparison.filter fun p => p.2.regression) ≠ [] := by
  constructor
  · intro h hempty
    have hmem := (report_line_heads now comparison _ h).1 (regrHeaderLine_head _)
    simp [regressionBlock, hempty] at hmem
  · intro hne
    have hblock : regrHeaderLine ((comparison.filter fun p => p.2.regression).length) ∈
        regressionBlock comparison := by
      simp only [regressionBlock]
      rw [if_neg ?_]
      · exact List.mem_cons_self _ _
      · rw [isEmpty_false_of_ne _ hne]
        exact Bool.false_ne_true
    unfold markdownReportLines
    simp only [List.mem_append]
    tauto

theorem imprHeader_mem_iff (now : String) (comparison : List (String × ComparisonRecord)) :
    imprHeaderLine ((comparison.filter fun p => p.2.improved).length) ∈
        markdownReportLines now comparison ↔
      (comparison.filter fun p => p.2.improved) ≠ [] := by
  constructor
  · intro h hempty
    have hmem := (report_line_heads now comparison _ h).2.1 (imprHeaderLine_head _)
    simp [improvementBlock, hempty] at hmem
  · intro hne
    have hblock : imprHeaderLine ((comparison.filter fun p => p.2.improved).length) ∈
        improvementBlock comparison := by
      simp only [improvementBlock]
      rw [if_neg ?_]
      · exact List.mem_cons_self _ _
      · rw [isEmpty_false_of_ne _ hne]
        exact Bool.false_ne_true
    unfold markdownReportLines
    simp only [List.mem_append]
    tauto

theorem stableLine_mem_iff (now : String) (comparison : List (String × ComparisonRecord)) :
    stableLine (stableCountOf comparison) ∈ markdownReportLines now comparison ↔
      0 < stableCountOf comparison := by
  constructor
  · intro h
    by_contra hneg
    have hmem := (report_line_heads now comparison _ h).2.2 (stableLine_head _)
    simp [stableBlock, hneg] at hmem
  · intro hpos
    have hblock : stableLine (stableCountOf comparison) ∈ stableBlock comparison := by
      simp [stableBlock, hpos]
    unfold markdownReportLines
    simp only [List.mem_append]
    tauto

theorem regression_bullets_mem (now : String) (comparison : List (String × ComparisonRecord))
    (p : String × ComparisonRecord) (hp : p ∈ comparison.filter fun p => p.2.regression) :
    bulletLine p.1 p.2.change_percent ∈ markdownReportLines now comparison := by
  have hne : (comparison.filter fun p => p.2.regression) ≠ [] := by
    intro h
    rw [h] at hp
    exact absurd hp (List.not_mem_nil p)
  have hblock : bulletLine p.1 p.2.change_percent ∈ regressionBlock comparison := by
    simp only [regressionBlock]
    rw [if_neg ?_]
    · exact List.mem_cons_of_mem _ (List.mem_append_left _ (List.mem_map.2 ⟨p, hp, rfl⟩))
    · rw [isEmpty_false_of_ne _ hne]
      exact Bool.false_ne_true
  unfold markdownReportLines
  simp only [List.mem_append]
  tauto

theorem improvement_bullets_mem (now : String) (comparison : List (String × ComparisonRecord))
    (p : String × ComparisonRecord) (hp : p ∈ comparison.filter fun p => p.2.improved) :
    bulletLine p.1 p.2.change_percent ∈ markdownReportLines now comparison := by
  have hne : (comparison.filter fun p => p.2.improved) ≠ [] := by
    intro h
    rw [h] at hp
    exact absurd hp (List.not_mem_nil p)
  have hblock : bulletLine p.1 p.2.change_percent ∈ improvementBlock comparison := by
    simp only [improvementBlock]
    rw [if_neg ?_]
    · exact List.mem_cons_of_mem _ (List.mem_append_left _ (List.mem_map.2 ⟨p, hp, rfl⟩))
    · rw [isEmpty_false_of_ne _ hne]
      exact Bool.false_ne_true
  unfold markdownReportLines
  simp only [List.mem_append]
  tauto

theorem three_way_count (comparison : List (String × ComparisonRecord))
    (hex : ∀ p ∈ comparison, ¬(p.2.regression = true ∧ p.2.improved = true)) :
    stableCountOf comparison =
      ((comparison.filter fun p => !p.2.regression && !p.2.improved).length : ℤ) := by
  induction comparison with
  | nil => rfl
  | cons q rest ih =>
    have hq := hex q (List.mem_cons_self _ _)
    have hrest : ∀ p ∈ rest, ¬(p.2.regression = true ∧ p.2.improved = true) :=
      fun p hp => hex p (List.mem_cons_of_mem _ hp)
    have ih' := ih hrest
    unfold stableCountOf at ih' ⊢
    cases hr : q.2.regression with
    | false =>
      cases hi : q.2.improved with
      | false =>
        simp only [List.filter_cons, hr, hi, Bool.not_false, Bool.and_self, if_true, if_false,
          Bool.false_and, Bool.and_false, List.length_cons]
        push_cast
        omega
      | true =>
        simp only [List.filter_cons, hr, hi, Bool.not_false, Bool.not_true, Bool.and_false,
          if_true, if_false, List.length_cons]
        push_cast
        omega
    | true =>
      have hi : q.2.improved = false := by
        cases hi2 : q.2.improved with
        | false => rfl
        | true => exact absurd ⟨hr, hi2⟩ hq
      simp only [List.filter_cons, hr, hi, Bool.not_true, Bool.false_and, if_true, if_false,
        List.length_cons]
      push_cast
      omega

theorem compare_stable_pred (current baseline : List (String × ℚ)) :
    ∀ p ∈ compare_metrics current baseline,
      (!p.2.regression && !p.2.improved) =
        (decide (0 ≤ p.2.change_percent) && decide (p.2.change_percent ≤ 10)) := by
  intro p hp
  obtain ⟨c, b, hb, he⟩ := compare_mem_good current baseline p hp
  rw [he]
  simp only [comparisonEntry]
  rw [Bool.and_comm]
  congr 1
  · rw [← decide_not]
    exact decide_eq_decide.mpr not_lt
  · rw [← decide_not]
    exact decide_eq_decide.mpr not_lt

/-- C7 (amended): in the Markdown report of a comparison produced by
`compare_metrics`, the summary contains the regression count line and one
bullet per regression (with signed percent) exactly when at least one
regression exists, the improvement count line and bullets exactly when at
least one improvement exists, and the stable count line exactly when the
stable count is positive; the stable count equals the number of records
whose `change_percent` lies in the closed interval from 0 to 10.  Summary
sections for empty categories are omitted, not printed with a zero count. -/
theorem markdown_report_summary (now : String) (current baseline : List (String × ℚ)) :
    (regrHeaderLine (((compare_metrics current baseline).filter
          fun p => p.2.regression).length) ∈
        markdownReportLines now (compare_metrics current baseline) ↔
      ((compare_metrics current baseline).filter fun p => p.2.regression) ≠ []) ∧
    (∀ p ∈ (compare_metrics current baseline).filter fun p => p.2.regression,
      bulletLine p.1 p.2.change_percent ∈
        markdownReportLines now (compare_metrics current baseline)) ∧
    (imprHeaderLine (((compare_metrics current baseline).filter
          fun p => p.2.improved).length) ∈
        markdownReportLines now (compare_metrics current baseline) ↔
      ((compare_metrics current baseline).filter fun p => p.2.improved) ≠ []) ∧
    (∀ p ∈ (compare_metrics current baseline).filter fun p => p.2.improved,
      bulletLine p.1 p.2.change_percent ∈
        markdownReportLines now (compare_metrics current baseline)) ∧
    (stableLine (stableCountOf (compare_metrics current baseline)) ∈
        markdownReportLines now (compare_metrics current baseline) ↔
      0 < stableCountOf (compare_metrics current baseline)) ∧
    stableCountOf (compare_metrics current baseline) =
      (((compare_metrics current baseline).filter
        fun p => decide (0 ≤ p.2.change_percent) && decide (p.2.change_percent ≤ 10)).length :
          ℤ) := by
  refine ⟨regrHeader_mem_iff now _, fun p hp => regression_bullets_mem now _ p hp,
    imprHeader_mem_iff now _, fun p hp => improvement_bullets_mem now _ p hp,
    stableLine_mem_iff now _, ?_⟩
  have hex : ∀ p ∈ compare_metrics current baseline,
      ¬(p.2.regression = true ∧ p.2.improved = true) := by
    intro p hp ⟨h1, h2⟩
    obtain ⟨c, b, hb, he⟩ := compare_mem_good current baseline p hp
    rw [he] at h1 h2
    simp only [comparisonEntry, decide_eq_true_iff] at h1 h2
    linarith
  rw [three_way_count _ hex, List.filter_congr (compare_stable_pred current baseline)]

/-- C7 counterexample: for the comparison of `startup_time_ms` 8 against
baseline 10 (one improvement, no regression, no stable metric), the Markdown
report contains no regression count at all — no "0 regression(s)" line and
no line starting with the regression marker — so the claim that the summary
lists the count of regressions for every mapping, including empty
categories, fails. -/
theorem markdown_summary_omits_empty_categories :
    ((compare_metrics [("startup_time_ms", 8)] [("startup_time_ms", 10)]).filter
        fun p => p.2.regression) = [] ∧
    compare_metrics [("startup_time_ms", 8)] [("startup_time_ms", 10)] ≠ [] ∧
    regrHeaderLine 0 ∉
      markdownReportLines "2024-01-01 00:00:00 UTC"
        (compare_metrics [("startup_time_ms", 8)] [("startup_time_ms", 10)]) ∧
    ∀ l ∈ markdownReportLines "2024-01-01 00:00:00 UTC"
        (compare_metrics [("startup_time_ms", 8)] [("startup_time_ms", 10)]),
      l.data.head? ≠ some '⚠' := by
  have hcomp : compare_metrics [("startup_time_ms", 8)] [("startup_time_ms", 10)] =
      [("startup_time_ms", comparisonEntry 8 10)] := by
    norm_num [compare_metrics, compareStep, dlookup, dinsert]
  have hreg : (comparisonEntry 8 10).regression = false := by
    rw [show (comparisonEntry 8 10).regression =
        decide (((8 : ℚ) - 10) / 10 * 100 > 10) from rfl, decide_eq_false_iff_not]
    norm_num
  have hfil : ([("startup_time_ms", comparisonEntry 8 10)].filter
      fun p => p.2.regression) = [] := by
    simp [List.filter_cons, hreg]
  refine ⟨by rw [hcomp]; exact hfil, by rw [hcomp]; simp, ?_, ?_⟩
  · intro hmem
    have hblk := (report_line_heads _ _ _ hmem).1 (regrHeaderLine_head 0)
    rw [hcomp] at hblk
    simp [regressionBlock, hfil] at hblk
  · intro l hl hhead
    have hblk := (report_line_heads _ _ _ hl).1 hhead
    rw [hcomp] at hblk
    simp [regressionBlock, hfil] at hblk

/-- Witness for C7's amended summary at the spec's regression scenario
(current 12 versus baseline 10): the summary lists exactly one regression. -/
theorem markdown_report_summary_witness :
    regrHeaderLine 1 ∈
      markdownReportLines "2024-01-01 00:00:00 UTC"
        (compare_metrics [("startup_time_ms", 12)] [("startup_time_ms", 10)]) := by
  have hcomp : compare_metrics [("startup_time_ms", 12)] [("startup_time_ms", 10)] =
      [("startup_time_ms", comparisonEntry 12 10)] := by
    norm_num [compare_metrics, compareStep, dlookup, dinsert]
  have hreg : (comparisonEntry 12 10).regression = true := by
    rw [show (comparisonEntry 12 10).regression =
        decide (((12 : ℚ) - 10) / 10 * 100 > 10) from rfl, decide_eq_true_iff]
    norm_num
  have hfil : ([("startup_time_ms", comparisonEntry 12 10)].filter
      fun p => p.2.regression) = [("startup_time_ms", comparisonEntry 12 10)] := by
    simp [List.filter_cons, hreg]
  have hne : ((compare_metrics [("startup_time_ms", 12)] [("startup_time_ms", 10)]).filter
      fun p => p.2.regression) ≠ [] := by
    rw [hcomp, hfil]
    simp
  have h2 := (markdown_report_summary "2024-01-01 00:00:00 UTC"
      [("startup_time_ms", 12)] [("startup_time_ms", 10)]).1.mpr hne
  rw [hcomp] at h2 ⊢
  rw [hfil] at h2
  simpa using h2
